import Mathlib

/-
A verification development for the buzzline categorizing consumer
(src/consumers/consumer_gbogbo.py).

The Python program is shallowly embedded:

* Decoded JSON values (the values `json.loads` can place in a record
  dictionary) are modelled by `PyVal`.  Containers (`list`, `dict`) are
  modelled as opaque constructors since the program never inspects their
  contents, only fails on them when they reach a coercion or a database
  binding.
* A raw record dictionary (the argument of `process_message`) is a
  `PyDict`: each of the seven keys the program reads via `.get` is an
  `Option PyVal` (`none` = key absent).
* The SQLite database is a `DB`: the `all_messages` master table, the
  per-category partition tables (keyed by the sanitized category
  identifier; the constant `category_` physical-name prefix is omitted
  since prepending a fixed string is injective), and the
  `category_stats` table as an association list.  `last_updated` /
  `created_at` wall-clock columns are not modelled (no claim is about
  wall-clock time).
* Python exceptions are modelled with `Except` / result flags; the
  `try/except` structure of the source is mirrored exactly.  Asynchronous
  exceptions (KeyboardInterrupt arriving mid-statement) are outside the
  model.
-/

namespace ConsumerModel

/-- A Python value as produced by `json.loads` for a field of a record.
`plist` / `pdict` stand for container values whose contents the consumer
never reads. -/
inductive PyVal where
  | pnone : PyVal
  | pstr : String → PyVal
  | pint : Int → PyVal
  | pfloat : ℚ → PyVal
  | pbool : Bool → PyVal
  | plist : PyVal
  | pdict : PyVal
deriving DecidableEq, Repr

/-- A decoded record dictionary: the seven keys `process_message` reads via
`dict.get`, each possibly absent.  (Other keys of the JSON object are never
read by the program, so they are not modelled.) -/
structure PyDict where
  message : Option PyVal
  author : Option PyVal
  timestamp : Option PyVal
  category : Option PyVal
  sentiment : Option PyVal
  keyword_mentioned : Option PyVal
  message_length : Option PyVal
deriving DecidableEq, Repr

/-- Digit run to a natural number (base 10). -/
def digitsToNat (l : List Char) : Nat :=
  l.foldl (fun a c => a * 10 + (c.toNat - 48)) 0

/-- All characters are decimal digits and the run is nonempty. -/
def allDigits (l : List Char) : Bool :=
  !l.isEmpty && l.all (·.isDigit)

/-- Model of Python `int(s)` on a string: optional sign followed by digits.
(The exact lexical fringe of CPython — whitespace, underscores — is not
exercised by any claim.) -/
def parseIntStr (s : String) : Option Int :=
  match s.data with
  | '-' :: rest => if allDigits rest then some (-(digitsToNat rest : Int)) else none
  | '+' :: rest => if allDigits rest then some (digitsToNat rest : Int) else none
  | l => if allDigits l then some (digitsToNat l : Int) else none

/-- Unsigned decimal with optional fractional part, as a rational. -/
def parseUnsignedFloat (l : List Char) : Option ℚ :=
  match l.splitOn '.' with
  | [w] => if allDigits w then some (digitsToNat w : ℚ) else none
  | [w, f] =>
      if allDigits w && allDigits f then
        some ((digitsToNat w : ℚ) + (digitsToNat f : ℚ) / ((10 : ℚ) ^ f.length))
      else none
  | _ => none

/-- Model of Python `float(s)` on a string: optional sign, digits, optional
single fractional part.  (Exponents / inf / nan are not exercised by any
claim.) -/
def parseFloatStr (s : String) : Option ℚ :=
  match s.data with
  | '-' :: rest => (parseUnsignedFloat rest).map (fun q => -q)
  | '+' :: rest => parseUnsignedFloat rest
  | l => parseUnsignedFloat l

/-- Python `float(v)`: numbers and booleans convert, strings are parsed,
everything else raises (TypeError/ValueError, both subclasses of
`Exception`). -/
def pyFloat : PyVal → Except Unit ℚ
  | .pint n => .ok (n : ℚ)
  | .pfloat q => .ok q
  | .pbool b => .ok (if b then 1 else 0)
  | .pstr s => match parseFloatStr s with
      | some q => .ok q
      | none => .error ()
  | _ => .error ()

/-- Truncation of a rational toward zero, as Python `int(float)` does. -/
def ratTrunc (q : ℚ) : Int :=
  Int.tdiv q.num (q.den : Int)

/-- Python `int(v)`: ints and booleans convert, floats truncate toward
zero, strings are parsed as integers, everything else raises. -/
def pyInt : PyVal → Except Unit Int
  | .pint n => .ok n
  | .pbool b => .ok (if b then 1 else 0)
  | .pfloat q => .ok (ratTrunc q)
  | .pstr s => match parseIntStr s with
      | some n => .ok n
      | none => .error ()
  | _ => .error ()

/-- Evaluating `v[:50]` (the logging line of `process_message` slices the
processed `message` value).  Slicing succeeds on strings and lists and
raises `TypeError` on every other decoded value. -/
def pySlice50 : PyVal → Except Unit Unit
  | .pstr _ => .ok ()
  | .plist => .ok ()
  | _ => .error ()

/-- The normalized record built by `process_message` (its returned dict):
all seven keys are always present; `sentiment` and `message_length` have
been coerced. -/
structure ProcDict where
  message : PyVal
  author : PyVal
  timestamp : PyVal
  category : PyVal
  sentiment : ℚ
  keyword_mentioned : PyVal
  message_length : Int
deriving DecidableEq, Repr

/-- The body of `process_message` before the `except Exception` handler:
builds the dict literal (evaluating the `.get` defaults and the two
coercions in source order) and then evaluates the logging f-string, which
slices `processed_message["message"][:50]`. -/
def processBody (d : PyDict) : Except Unit ProcDict := do
  let msg := d.message.getD .pnone
  let auth := d.author.getD .pnone
  let ts := d.timestamp.getD .pnone
  let cat := d.category.getD (.pstr "other")
  let sent ← pyFloat (d.sentiment.getD (.pfloat 0))
  let kw := d.keyword_mentioned.getD (.pstr "")
  let len ← pyInt (d.message_length.getD (.pint 0))
  let _ ← pySlice50 msg
  pure ⟨msg, auth, ts, cat, sent, kw, len⟩

/-- `process_message`: the body wrapped in `try ... except Exception:
return None`. -/
def processMessage (d : PyDict) : Option ProcDict :=
  (processBody d).toOption

/-! ## Category sanitization (the `safe_category` expression) -/

/-- Python `s.replace(old, new)` for a single-character pattern, which is a
character-wise substitution. -/
def pyReplaceChar (old new : Char) (l : List Char) : List Char :=
  l.map (fun c => if c = old then new else c)

/-- `safe_category` on the character list of the label:
`category.replace(' ', '_').replace('-', '_').lower()` in source order.
Lower-casing is modelled on the ASCII range (`Char.toLower`); every
category label a claim mentions is ASCII. -/
def safeCategoryL (l : List Char) : List Char :=
  (pyReplaceChar '-' '_' (pyReplaceChar ' ' '_' l)).map Char.toLower

/-- `safe_category` as a string transform. -/
def safeCategory (s : String) : String :=
  ⟨safeCategoryL s.data⟩

/-- The per-character effect the spec describes: spaces and hyphens become
underscores, every other character is only lower-cased. -/
def specCatChar (c : Char) : Char :=
  if c = ' ' ∨ c = '-' then '_' else c.toLower

/-! ## The SQLite store -/

/-- A row of the `all_messages` master table.  The TEXT-affinity columns
hold text (SQLite converts bound numbers to text for TEXT columns;
`bindText` below performs that conversion); `keyword_mentioned` is the one
nullable column. -/
structure MasterRow where
  message : String
  author : String
  timestamp : String
  category : String
  sentiment : ℚ
  keyword : Option String
  length : Int
deriving DecidableEq, Repr

/-- A row of a `category_<id>` partition table (no `category` column). -/
structure PartRow where
  message : String
  author : String
  timestamp : String
  sentiment : ℚ
  keyword : Option String
  length : Int
deriving DecidableEq, Repr

/-- The database state: which partition tables exist, the master rows, the
partition rows (tagged with their partition identifier, in insertion
order), and the `category_stats` association list
`category ↦ (message_count, avg_sentiment)`. -/
structure DB where
  tables : List String
  master : List MasterRow
  parts : List (String × PartRow)
  stats : List (String × Nat × ℚ)
deriving DecidableEq, Repr

/-- The freshly initialized store: `main` deletes any prior database file
and `init_db` creates empty `all_messages` / `category_stats` tables. -/
def freshDB : DB := ⟨[], [], [], []⟩

/-- `create_category_table`: idempotently registers the partition (the
`CREATE TABLE IF NOT EXISTS` plus index creation have no row effect). -/
def ensureTable (tid : String) (db : DB) : DB :=
  if tid ∈ db.tables then db else ⟨db.tables ++ [tid], db.master, db.parts, db.stats⟩

/-- Binding a decoded value into a NOT NULL TEXT-affinity column:
`none` = the statement raises (NULL violates the constraint, or the value
is an unbindable container type); otherwise the stored text.  Numbers are
converted to their text form by TEXT affinity. -/
def bindText : PyVal → Option String
  | .pstr s => some s
  | .pint n => some (toString n)
  | .pfloat q => some (toString q)
  | .pbool b => some (if b then "1" else "0")
  | _ => none

/-- Binding into the nullable `keyword_mentioned` TEXT column: NULL is
allowed, container types still raise. -/
def bindTextOpt : PyVal → Option (Option String)
  | .pnone => some none
  | .pstr s => some (some s)
  | .pint n => some (some (toString n))
  | .pfloat q => some (some (toString q))
  | .pbool b => some (some (if b then "1" else "0"))
  | _ => none

/-- The master-table row the `INSERT INTO all_messages` statement would
store for a processed record whose category label is `cat`, or `none` if
the statement raises (NOT NULL violation / unbindable value). -/
def masterRowOf (p : ProcDict) (cat : String) : Option MasterRow := do
  let m ← bindText p.message
  let a ← bindText p.author
  let ts ← bindText p.timestamp
  let kw ← bindTextOpt p.keyword_mentioned
  pure ⟨m, a, ts, cat, p.sentiment, kw, p.message_length⟩

/-- The partition row carrying the same field values (everything but the
category column). -/
def partRowOf (r : MasterRow) : PartRow :=
  ⟨r.message, r.author, r.timestamp, r.sentiment, r.keyword, r.length⟩

/-- The rows of the master table belonging to one category
(`WHERE category = ?`). -/
def catRows (rows : List MasterRow) (c : String) : List MasterRow :=
  rows.filter (fun r => r.category == c)

/-- SQL `AVG` of the `sentiment` column over a row set, as an exact
rational. -/
def avgSentiment (rows : List MasterRow) : ℚ :=
  ((rows.map (·.sentiment)).sum) / (rows.length : ℚ)

/-- Lookup in the `category_stats` table by primary key. -/
def statsFind (c : String) : List (String × Nat × ℚ) → Option (Nat × ℚ)
  | [] => none
  | (k, v) :: rest => if k = c then some v else statsFind c rest

/-- `INSERT OR REPLACE INTO category_stats`: the conflicting row (if any)
is deleted and the new row inserted. -/
def statsReplace (c : String) (v : Nat × ℚ) (l : List (String × Nat × ℚ)) :
    List (String × Nat × ℚ) :=
  l.filter (fun e => e.1 ≠ c) ++ [(c, v)]

/-- Result of `insert_message`: the database after the call and whether the
call returned normally (`ok = true`) or raised (`ok = false`, exception
propagates to the caller; the transaction's row writes are rolled back by
the `with sqlite3.connect` context manager, but the already committed
`create_category_table` schema change persists). -/
structure InsertResult where
  db : DB
  ok : Bool
deriving DecidableEq, Repr

/-- `insert_message(message_data, db_path)`.
`category = message_data.get('category', 'other')` — on a `ProcDict` the
key is always present, so this is `p.category`.  If the category value is
not a string, `category.replace(' ', '_')` raises `AttributeError` before
any database effect.  Otherwise: ensure the partition table exists, insert
into `all_messages`, insert the same field values into the partition
table (its NOT NULL columns are a subset of the master's, so it cannot
fail once the master insert succeeded), and recompute the category's
stats row: `message_count` is the previous stats count plus one
(`COALESCE(... , 0) + 1`) and `avg_sentiment` is `AVG(sentiment)` over
the master rows of the category, the just-inserted row included (the
SELECT runs in the same uncommitted transaction). -/
def insertMessage (p : ProcDict) (db : DB) : InsertResult :=
  match p.category with
  | .pstr cat =>
      let tid := safeCategory cat
      let db1 := ensureTable tid db
      match masterRowOf p cat with
      | some mrow =>
          let master2 := db1.master ++ [mrow]
          let prev := match statsFind cat db1.stats with
            | some (n, _) => n
            | none => 0
          let newAvg := avgSentiment (catRows master2 cat)
          ⟨⟨db1.tables, master2, db1.parts ++ [(tid, partRowOf mrow)],
            statsReplace cat (prev + 1, newAvg) db1.stats⟩, true⟩
      | none => ⟨db1, false⟩
  | _ => ⟨db, false⟩

/-! ## Claim-side stats specification -/

/-- The stats row the spec demands for a category: derived purely from the
master table — `none` when the category has no master rows, otherwise the
row count and the arithmetic mean of the `sentiment` values. -/
def expectedStats (rows : List MasterRow) (c : String) : Option (Nat × ℚ) :=
  let g := catRows rows c
  if g.isEmpty then none else some (g.length, avgSentiment g)

/-! ## `get_category_analytics` -/

/-- Code-point lexicographic order on character lists: the order SQLite's
default BINARY collation (byte-wise memcmp on UTF-8) induces on text
values. -/
def charListLt : List Char → List Char → Bool
  | [], [] => false
  | [], _ :: _ => true
  | _ :: _, [] => false
  | a :: as, b :: bs =>
      if a.toNat < b.toNat then true
      else if a.toNat = b.toNat then charListLt as bs
      else false

/-- Strict BINARY-collation order on strings. -/
def strLtB (a b : String) : Bool :=
  charListLt a.data b.data

/-- The larger of two strings under BINARY collation (how SQLite `MAX`
compares two TEXT values). -/
def maxStr (a b : String) : String :=
  if strLtB a b then b else a

/-- One output row of the analytics query:
`(category, message_count, avg_sentiment, unique_authors, latest_message)`. -/
structure SRow where
  cat : String
  cnt : Nat
  avg : ℚ
  authors : Nat
  latest : String
deriving DecidableEq, Repr

/-- The distinct categories of the master table (what `GROUP BY category`
groups over). -/
def categoriesOf (rows : List MasterRow) : List String :=
  (rows.map (·.category)).dedup

/-- The aggregate row the query computes for one category group:
`COUNT(*)`, `AVG(sentiment)`, `COUNT(DISTINCT author)`,
`MAX(timestamp)` (SQLite compares TEXT values lexicographically by code
point). -/
def summaryRow (rows : List MasterRow) (c : String) : SRow :=
  let g := catRows rows c
  ⟨c, g.length, avgSentiment g, ((g.map (·.author)).dedup).length,
    (g.map (·.timestamp)).foldl maxStr ""⟩

/-- The semantics of
`SELECT category, COUNT(*), AVG(sentiment), COUNT(DISTINCT author),
MAX(timestamp) FROM all_messages GROUP BY category ORDER BY message_count
DESC` as a relation between the master table and a possible output list:
one row per distinct category carrying the aggregates of its group,
sorted by `message_count` descending.  The `ORDER BY` clause has no
secondary key, so SQL fixes the relative order of equal-count rows no
further: every list satisfying this relation is an admissible result. -/
def validSummary (rows : List MasterRow) (out : List SRow) : Prop :=
  (out.map (·.cat)).Perm (categoriesOf rows) ∧
  (∀ r ∈ out, r = summaryRow rows r.cat) ∧
  out.Pairwise (fun a b => b.cnt ≤ a.cnt)

instance (rows : List MasterRow) (out : List SRow) :
    Decidable (validSummary rows out) := by
  unfold validSummary; infer_instance

/-- The ordering the claim asserts: `message_count` descending with ties
broken by category name ascending. -/
def claimOrder (a b : SRow) : Prop :=
  b.cnt < a.cnt ∨ (a.cnt = b.cnt ∧ strLtB a.cat b.cat = true)

instance (a b : SRow) : Decidable (claimOrder a b) := by
  unfold claimOrder; infer_instance

/-! ## The tailing reader -/

/-- Splitting the text after the seek position the way Python line
iteration does: each yielded line keeps its `'\n'` terminator, and a final
unterminated chunk is yielded as well. -/
def splitLinesAux : List Char → List Char → List (List Char)
  | [], acc => if acc.isEmpty then [] else [acc.reverse]
  | c :: rest, acc =>
      if c = '\n' then (acc.reverse ++ ['\n']) :: splitLinesAux rest []
      else splitLinesAux rest (c :: acc)

/-- The lines Python's `for line in file` yields. -/
def splitLines (l : List Char) : List (List Char) :=
  splitLinesAux l []

/-- `poll` line delivery: open, `seek(last_position)`, iterate.  The file
content is the byte/character list `content`. -/
def pollLines (content : List Char) (pos : Nat) : List (List Char) :=
  splitLines (content.drop pos)

/-- `file.tell()` after the iteration has consumed the file: the end of
the file, or `pos` itself when the seek position was already beyond the
end. -/
def pollTell (content : List Char) (pos : Nat) : Nat :=
  max pos content.length

/-- Python `str.isspace`-style whitespace for the characters that occur in
line-delimited input. -/
def isSpaceCh (c : Char) : Bool :=
  c = ' ' || c = '\n' || c = '\t' || c = '\r'

/-- Python `line.strip()`. -/
def pyStrip (l : List Char) : List Char :=
  ((l.dropWhile isSpaceCh).reverse.dropWhile isSpaceCh).reverse

/-! ## The drain loop of `consume_messages_from_file` -/

/-- What one raw line turns into after `line.strip()` and `json.loads`:
whitespace-only (skipped by the `if line.strip():` guard), a decode
failure (`json.JSONDecodeError`), or a decoded record dictionary. -/
inductive LineParse where
  | blank : LineParse
  | bad : LineParse
  | ok : PyDict → LineParse
deriving DecidableEq, Repr

/-- Classification of a raw line given a JSON decoder `dec` (the external
`json.loads`, a parameter of the model): strip, skip if empty, decode. -/
def classify (dec : List Char → Option PyDict) (line : List Char) : LineParse :=
  let s := pyStrip line
  if s.isEmpty then .blank
  else match dec s with
    | some d => .ok d
    | none => .bad

/-- Observable events of the drain loop, in order: a logged JSON decode
fault, a logged `process_message` rejection, a successful storage insert,
an emitted analytics report, a storage-insert exception (logged by the
outer handler before `sys.exit(11)`). -/
inductive Ev where
  | jsonErr : Ev
  | procErr : Ev
  | insertOk : Ev
  | report : Ev
  | insertFail : Ev
deriving DecidableEq, Repr

/-- Result of the `for line in file` loop: ran to completion (database,
final `messages_processed` counter, events), or an exception escaped the
loop (only `json.JSONDecodeError` is caught inside it). -/
inductive DrainRes where
  | done : DB → Nat → List Ev → DrainRes
  | fatal : DB → List Ev → DrainRes
deriving DecidableEq, Repr

/-- The body of the `for` loop over the delivered lines: skip blank lines;
a decode fault is logged and skipped; a processed record is inserted and
counted, and every time the (call-local) counter `messages_processed`
reaches a multiple of 10 an analytics report is logged; an insert
exception aborts the loop. -/
def drainLines : List LineParse → DB → Nat → List Ev → DrainRes
  | [], db, n, evs => .done db n evs
  | .blank :: ls, db, n, evs => drainLines ls db n evs
  | .bad :: ls, db, n, evs => drainLines ls db n (evs ++ [.jsonErr])
  | .ok d :: ls, db, n, evs =>
      match processMessage d with
      | none => drainLines ls db n (evs ++ [.procErr])
      | some p =>
          let r := insertMessage p db
          if r.ok then
            let n' := n + 1
            let evs' := evs ++ [.insertOk] ++ (if n' % 10 = 0 then [.report] else [])
            drainLines ls r.db n' evs'
          else .fatal r.db (evs ++ [.insertFail])

/-- The exceptions the outer `try` of `consume_messages_from_file`
distinguishes: `FileNotFoundError` (exit 10) and any other `Exception`
(exit 11).  `.other` carries the database state and events accumulated
before the exception escaped. -/
inductive Exc where
  | fnf : Exc
  | other : DB → List Ev → Exc

/-- The `try` block of one iteration of the `while True` loop: open the
file (absent → `FileNotFoundError`), drain the delivered lines, set
`last_position = file.tell()` and return it. -/
def tryBlock (dec : List Char → Option PyDict) (exists_ : Bool)
    (content : List Char) (pos : Nat) (db : DB) :
    Except Exc (Nat × DB × List Ev) :=
  if exists_ then
    match drainLines ((pollLines content pos).map (classify dec)) db 0 [] with
    | .done db' _ evs => .ok (pollTell content pos, db', evs)
    | .fatal db' evs => .error (.other db' evs)
  else .error .fnf

/-- What an `except` handler does: `sys.exit(c)` raises `SystemExit`, so
the handler never completes normally. -/
inductive HandlerRes where
  | raises : Nat → HandlerRes
  | completes : HandlerRes

/-- The two handlers of `consume_messages_from_file`: both log and call
`sys.exit` (10 for `FileNotFoundError`, 11 otherwise). -/
def handleExc : Exc → HandlerRes
  | .fnf => .raises 10
  | .other _ _ => .raises 11

/-- Outcome of one iteration of the `while True` loop in
`consume_messages_from_file`: the `return last_position` inside the `try`,
a `SystemExit` escaping from a handler, or — if a handler completed
normally — falling through to the `time.sleep(interval_secs)` at the
bottom of the loop and iterating again. -/
inductive StepRes where
  | ret : Nat → DB → List Ev → StepRes
  | raised : Nat → DB → List Ev → StepRes
  | sleepLoop : StepRes
deriving DecidableEq, Repr

/-- One iteration of `consume_messages_from_file`'s `while True` loop. -/
def consumeIter (dec : List Char → Option PyDict) (exists_ : Bool)
    (content : List Char) (pos : Nat) (db : DB) : StepRes :=
  match tryBlock dec exists_ content pos db with
  | .ok (p, db', evs) => .ret p db' evs
  | .error e =>
      match handleExc e, e with
      | .raises c, .fnf => .raised c db []
      | .raises c, .other db' evs => .raised c db' evs
      | .completes, _ => .sleepLoop

/-- The property C10 asserts of one call: it never falls through to the
in-function sleep, and when it returns it returns the updated file
position. -/
def stepOneShot : StepRes → Nat → Prop
  | .sleepLoop, _ => False
  | .ret p _ _, t => p = t
  | .raised _ _ _, _ => True

/-! ## The `main` ingestion loop -/

/-- Outcome of running the `main` polling loop against a finite list of
file snapshots (the file content observed at each successive poll):
still alive with the current cursor/database/events, terminated by a
`SystemExit` with an exit code, or stuck inside a single call (the
unreachable in-function sleep branch). -/
inductive RunRes where
  | alive : Nat → DB → List Ev → RunRes
  | exited : Nat → DB → List Ev → RunRes
  | stuck : RunRes
deriving DecidableEq, Repr

/-- `main` STEP 4: `last_position = 0`, then repeatedly
`last_position = consume_messages_from_file(...)` with a sleep between
polls.  Each element of `snaps` is the file content at one poll. -/
def runSnapshots (dec : List Char → Option PyDict) :
    List (List Char) → Nat → DB → List Ev → RunRes
  | [], pos, db, evs => .alive pos db evs
  | c :: cs, pos, db, evs =>
      match consumeIter dec true c pos db with
      | .ret p db' evs' => runSnapshots dec cs p db' (evs ++ evs')
      | .raised code db' evs' => .exited code db' (evs ++ evs')
      | .sleepLoop => .stuck

/-! ## Concrete inputs used by counterexamples and witnesses -/

/-- A fully valid decoded record. -/
def exGood : PyDict :=
  ⟨some (.pstr "hi there"), some (.pstr "Ann"), some (.pstr "2025-01-01 00:00:00"),
   some (.pstr "humor"), some (.pfloat (1/2)), some (.pstr "k"), some (.pint 8)⟩

/-- The same record with the `author` key absent. -/
def exNoAuthor : PyDict :=
  ⟨some (.pstr "hi there"), none, some (.pstr "2025-01-01 00:00:00"),
   some (.pstr "humor"), some (.pfloat (1/2)), some (.pstr "k"), some (.pint 8)⟩

/-- The same record with the `message` key absent. -/
def exNoMessage : PyDict :=
  ⟨none, some (.pstr "Ann"), some (.pstr "2025-01-01 00:00:00"),
   some (.pstr "humor"), some (.pfloat (1/2)), some (.pstr "k"), some (.pint 8)⟩

/-- The processed form of `exGood`. -/
def exGoodProc : ProcDict :=
  ⟨.pstr "hi there", .pstr "Ann", .pstr "2025-01-01 00:00:00",
   .pstr "humor", 1/2, .pstr "k", 8⟩

/-- A processed record whose `author` is `None` (what `process_message`
returns for `exNoAuthor`). -/
def exNoAuthorProc : ProcDict :=
  ⟨.pstr "hi there", .pnone, .pstr "2025-01-01 00:00:00",
   .pstr "humor", 1/2, .pstr "k", 8⟩

/-- A concrete stand-in for `json.loads`: the one-character line `a`
decodes to the author-less record, the line `v` to the valid record,
anything else fails to decode. -/
def exDec : List Char → Option PyDict := fun l =>
  if l = ['a'] then some exNoAuthor
  else if l = ['v'] then some exGood
  else none

/-- A file whose single line has no trailing line terminator. -/
def exPartial : List Char := ['x', 'y']

/-- A file holding an author-less record line followed by a valid record
line. -/
def exAuthorRun : List Char := "a\nv\n".data

/-- A file snapshot holding five valid record lines. -/
def exFive : List Char := "v\nv\nv\nv\nv\n".data

/-- The same file after five more valid record lines were appended. -/
def exTen : List Char := exFive ++ exFive

/-- Two master rows in two different categories with one message each
(equal `message_count`). -/
def exTieRows : List MasterRow :=
  [⟨"m1", "Ann", "t1", "a", 1/2, none, 2⟩, ⟨"m2", "Bob", "t2", "b", 1/4, none, 2⟩]

/-- The analytics output listing category `b` before category `a`. -/
def exTieOut : List SRow :=
  [summaryRow exTieRows "b", summaryRow exTieRows "a"]

/-- The analytics output listing category `a` before category `b`. -/
def exTieOutAsc : List SRow :=
  [summaryRow exTieRows "a", summaryRow exTieRows "b"]

/-- Fold a list of processed records through `insert_message` (the
database state after a sequence of insert attempts starting from a given
store). -/
def insertRun (ps : List ProcDict) (db : DB) : DB :=
  ps.foldl (fun d p => (insertMessage p d).db) db

/-- The events a run outcome carries. -/
def runEvents : RunRes → List Ev
  | .alive _ _ evs => evs
  | .exited _ _ evs => evs
  | .stuck => []

/-- The stats-consistency invariant of claim C3: every `category_stats`
row (and the absence of one) is exactly what recomputation from the
master table yields. -/
def StatsInv (db : DB) : Prop :=
  ∀ c, statsFind c db.stats = expectedStats db.master c

/-! ## Helper lemmas -/

theorem specCatChar_comp (c : Char) :
    Char.toLower (if (if c = ' ' then '_' else c) = '-' then '_' else if c = ' ' then '_' else c) =
      specCatChar c := by
  by_cases h1 : c = ' '
  · subst h1; decide
  · by_cases h2 : c = '-'
    · subst h2; decide
    · simp [specCatChar, h1, h2]

theorem safeCategoryL_eq_map (l : List Char) : safeCategoryL l = l.map specCatChar := by
  unfold safeCategoryL pyReplaceChar
  rw [List.map_map, List.map_map]
  exact List.map_congr_left fun c _ => specCatChar_comp c

theorem splitLinesAux_flatten (l : List Char) :
    ∀ acc, (splitLinesAux l acc).flatten = acc.reverse ++ l := by
  induction l with
  | nil =>
      intro acc
      by_cases h : acc.isEmpty
      · simp [splitLinesAux, h, List.isEmpty_iff.mp h]
      · simp [splitLinesAux, h]
  | cons c t ih =>
      intro acc
      by_cases h : c = '\n'
      · simp [splitLinesAux, h, ih]
      · simp [splitLinesAux, h, ih (c :: acc)]

theorem ensureTable_master (tid : String) (db : DB) :
    (ensureTable tid db).master = db.master := by
  unfold ensureTable; split <;> rfl

theorem ensureTable_parts (tid : String) (db : DB) :
    (ensureTable tid db).parts = db.parts := by
  unfold ensureTable; split <;> rfl

theorem ensureTable_stats (tid : String) (db : DB) :
    (ensureTable tid db).stats = db.stats := by
  unfold ensureTable; split <;> rfl

theorem masterRowOf_category {p : ProcDict} {cat : String} {mrow : MasterRow}
    (h : masterRowOf p cat = some mrow) : mrow.category = cat := by
  unfold masterRowOf at h
  cases hm : bindText p.message
  · rw [hm] at h; exact absurd h (by simp)
  · rw [hm] at h
    cases ha : bindText p.author
    · rw [ha] at h; exact absurd h (by simp)
    · rw [ha] at h
      cases ht : bindText p.timestamp
      · rw [ht] at h; exact absurd h (by simp)
      · rw [ht] at h
        cases hk : bindTextOpt p.keyword_mentioned
        · rw [hk] at h; exact absurd h (by simp)
        · rw [hk] at h
          simp at h
          subst h
          rfl

theorem masterRowOf_author_none {p : ProcDict} (cat : String) (h : p.author = .pnone) :
    masterRowOf p cat = none := by
  unfold masterRowOf
  cases hm : bindText p.message
  · rfl
  · rw [h]; rfl

theorem insertMessage_fail_shape (p : ProcDict) (db : DB)
    (h : (insertMessage p db).ok = false) :
    (insertMessage p db).db.master = db.master ∧
    (insertMessage p db).db.parts = db.parts ∧
    (insertMessage p db).db.stats = db.stats := by
  unfold insertMessage at *
  cases hc : p.category <;> try exact ⟨rfl, rfl, rfl⟩
  rename_i cat
  cases hm : masterRowOf p cat
  · simp only [hm]
    exact ⟨ensureTable_master _ _, ensureTable_parts _ _, ensureTable_stats _ _⟩
  · rw [hc] at h
    simp only [hm] at h
    exact absurd h (by decide)

theorem insertMessage_ok_eq (p : ProcDict) (db : DB) (cat : String) (mrow : MasterRow)
    (hc : p.category = .pstr cat) (hm : masterRowOf p cat = some mrow) :
    insertMessage p db =
      ⟨⟨(ensureTable (safeCategory cat) db).tables, db.master ++ [mrow],
        db.parts ++ [(safeCategory cat, partRowOf mrow)],
        statsReplace cat
          ((match statsFind cat db.stats with | some (n, _) => n | none => 0) + 1,
            avgSentiment (catRows (db.master ++ [mrow]) cat)) db.stats⟩, true⟩ := by
  simp [insertMessage, hc, hm, ensureTable_master, ensureTable_parts, ensureTable_stats]

theorem insertMessage_ok_shape (p : ProcDict) (db : DB)
    (h : (insertMessage p db).ok = true) :
    ∃ cat mrow, p.category = .pstr cat ∧ masterRowOf p cat = some mrow ∧
      (insertMessage p db).db.master = db.master ++ [mrow] ∧
      (insertMessage p db).db.parts = db.parts ++ [(safeCategory cat, partRowOf mrow)] ∧
      (insertMessage p db).db.stats =
        statsReplace cat
          ((match statsFind cat db.stats with | some (n, _) => n | none => 0) + 1,
            avgSentiment (catRows (db.master ++ [mrow]) cat)) db.stats := by
  cases hc : p.category <;> try simp [insertMessage, hc] at h
  case pstr cat =>
    cases hm : masterRowOf p cat
    · simp [insertMessage, hc, hm] at h
    · rename_i mrow
      rw [insertMessage_ok_eq p db cat mrow hc hm]
      exact ⟨cat, mrow, rfl, hm, rfl, rfl, rfl⟩

theorem processMessage_none_of_no_message (d : PyDict)
    (h : d.message.getD .pnone = .pnone) : processMessage d = none := by
  unfold processMessage processBody
  rw [h]
  cases hs : pyFloat (d.sentiment.getD (.pfloat 0)) <;>
    cases hl : pyInt (d.message_length.getD (.pint 0)) <;>
      simp [hs, hl, pySlice50, Except.toOption, Except.bind]
  all_goals rfl

/-! ## Claim theorems -/

/-- Claim C6 (confirmed): the category-to-partition-identifier transform is
a pure function of the label (determinism is definitional); it maps
`"Pop Culture"` to `pop_culture`, `"E-Sports"` to `e_sports`, `"Meme!"` to
`meme!`; and character-wise it sends each space and hyphen to an
underscore and only lower-cases every other character. -/
theorem c6_category_transform :
    safeCategory "Pop Culture" = "pop_culture" ∧
    safeCategory "E-Sports" = "e_sports" ∧
    safeCategory "Meme!" = "meme!" ∧
    ∀ l : List Char, safeCategoryL l = l.map specCatChar :=
  ⟨by decide, by decide, by decide, safeCategoryL_eq_map⟩

/-- Claim C2 (refuted as stated): polling a file whose single line `xy`
lacks a trailing terminator delivers that partial line (it is the last
delivered line and carries no `'\n'`) and returns cursor 2 — the end of
the file — not 0, the start of the partial line, which the claim
requires. -/
theorem c2_counterexample :
    (pollLines exPartial 0).getLast? = some exPartial ∧
    exPartial.getLast? ≠ some '\n' ∧
    pollTell exPartial 0 = 2 ∧ pollTell exPartial 0 ≠ 0 := by decide

/-- Claim C2 (amended): the tailing read delivers every byte at or after
the cursor — the trailing partial line included — and the returned cursor
is the end of the file, so the partial line is consumed rather than
deferred. -/
theorem c2_partial_line_consumed (content : List Char) (pos : Nat)
    (h : pos ≤ content.length) :
    (pollLines content pos).flatten = content.drop pos ∧
    pollTell content pos = content.length := by
  constructor
  · show (splitLinesAux (content.drop pos) []).flatten = content.drop pos
    simpa using splitLinesAux_flatten (content.drop pos) []
  · simp only [pollTell]
    omega

/-- Witness for the amended C2 at the concrete unterminated file `xy`. -/
theorem c2_witness :
    (pollLines exPartial 0).flatten = exPartial.drop 0 ∧
    pollTell exPartial 0 = exPartial.length :=
  c2_partial_line_consumed exPartial 0 (by decide)

/-- Claim C10 (confirmed): one call to `consume_messages_from_file`
performs a single pass: its loop iteration either returns `file.tell()`
(the updated position) or raises `SystemExit` from an exception handler;
the fall-through to the in-function `time.sleep` is unreachable because
both handlers end in `sys.exit`. -/
theorem c10_one_pass_no_sleep (dec : List Char → Option PyDict) (exists_ : Bool)
    (content : List Char) (pos : Nat) (db : DB) :
    stepOneShot (consumeIter dec exists_ content pos db) (pollTell content pos) := by
  unfold consumeIter tryBlock
  by_cases he : exists_ <;> simp [he]
  · cases hd : drainLines ((pollLines content pos).map (classify dec)) db 0 [] <;>
      simp [stepOneShot, handleExc]
  · simp [stepOneShot, handleExc]

/-- Claim C9 (confirmed): `process_message` is total — every input
dictionary yields either a fully populated normalized record or `None` —
and an input whose `message` key is absent (so `dict.get` yields `None`)
is rejected: whichever of the coercions or the logging slice raises
first, the `except Exception` handler converts it to the `None` result. -/
theorem c9_process_message_total (d : PyDict) :
    (processMessage d = none ∨ ∃ p, processMessage d = some p) ∧
    (d.message.getD .pnone = .pnone → processMessage d = none) := by
  constructor
  · cases h : processMessage d
    · exact Or.inl rfl
    · exact Or.inr ⟨_, rfl⟩
  · exact processMessage_none_of_no_message d

/-- Witness for C9: the record with the `message` key absent is mapped to
`None`. -/
theorem c9_witness : processMessage exNoMessage = none :=
  (c9_process_message_total exNoMessage).2 (by decide)

/-- Claim C7 (confirmed): `insert_message` is atomic across the two
tables: a successful call appends the record to the master table and to
its partition table with identical field values; a failed call (the
exception propagates, the connection context manager rolls the
transaction back) leaves the rows of the master table, of every partition
table, and of the stats table unchanged. -/
theorem c7_insert_atomic (p : ProcDict) (db : DB) :
    ((insertMessage p db).ok = true →
      ∃ mrow tid,
        (insertMessage p db).db.master = db.master ++ [mrow] ∧
        (insertMessage p db).db.parts = db.parts ++ [(tid, partRowOf mrow)] ∧
        (partRowOf mrow).message = mrow.message ∧
        (partRowOf mrow).author = mrow.author ∧
        (partRowOf mrow).timestamp = mrow.timestamp ∧
        (partRowOf mrow).sentiment = mrow.sentiment ∧
        (partRowOf mrow).keyword = mrow.keyword ∧
        (partRowOf mrow).length = mrow.length) ∧
    ((insertMessage p db).ok = false →
      (insertMessage p db).db.master = db.master ∧
      (insertMessage p db).db.parts = db.parts ∧
      (insertMessage p db).db.stats = db.stats) := by
  constructor
  · intro h
    obtain ⟨cat, mrow, _, _, hm, hp, _⟩ := insertMessage_ok_shape p db h
    exact ⟨mrow, safeCategory cat, hm, hp, rfl, rfl, rfl, rfl, rfl, rfl⟩
  · exact insertMessage_fail_shape p db

/-- Witness for C7: a successful insert of the valid record appends to
both tables; the failed insert of the author-less record changes no
rows. -/
theorem c7_witness :
    (∃ mrow tid,
       (insertMessage exGoodProc freshDB).db.master = freshDB.master ++ [mrow] ∧
       (insertMessage exGoodProc freshDB).db.parts = freshDB.parts ++ [(tid, partRowOf mrow)] ∧
       (partRowOf mrow).message = mrow.message ∧
       (partRowOf mrow).author = mrow.author ∧
       (partRowOf mrow).timestamp = mrow.timestamp ∧
       (partRowOf mrow).sentiment = mrow.sentiment ∧
       (partRowOf mrow).keyword = mrow.keyword ∧
       (partRowOf mrow).length = mrow.length) ∧
    ((insertMessage exNoAuthorProc freshDB).db.master = freshDB.master ∧
     (insertMessage exNoAuthorProc freshDB).db.parts = freshDB.parts ∧
     (insertMessage exNoAuthorProc freshDB).db.stats = freshDB.stats) :=
  ⟨(c7_insert_atomic exGoodProc freshDB).1 (by decide),
   (c7_insert_atomic exNoAuthorProc freshDB).2 (by decide)⟩

/-- Claim C8 (confirmed): a malformed line immediately followed by a valid
line yields exactly one stored record (the valid one: the master table
grows by exactly one row) and exactly one logged decode fault, and the
loop continues to completion (the drain finishes in the `done` state, so
the position update `last_position = file.tell()` — which is past the
malformed line — is reached). -/
theorem c8_fault_isolation (d : PyDict) (p : ProcDict) (db : DB)
    (hd : processMessage d = some p) (hi : (insertMessage p db).ok = true) :
    drainLines [.bad, .ok d] db 0 [] =
      .done (insertMessage p db).db 1 [.jsonErr, .insertOk] ∧
    (insertMessage p db).db.master.length = db.master.length + 1 := by
  constructor
  · simp [drainLines, hd, hi]
  · obtain ⟨cat, mrow, _, _, hm, _, _⟩ := insertMessage_ok_shape p db hi
    simp [hm]

/-- Witness for C8 at the concrete malformed-then-valid input. -/
theorem c8_witness :
    drainLines [.bad, .ok exGood] freshDB 0 [] =
      .done (insertMessage exGoodProc freshDB).db 1 [.jsonErr, .insertOk] ∧
    (insertMessage exGoodProc freshDB).db.master.length = freshDB.master.length + 1 :=
  c8_fault_isolation exGood exGoodProc freshDB (by rfl) (by decide)

/-- Claim C1 (refuted as stated): on the file holding an author-less
record line followed by a valid record line, the run does not drop the
record and continue — `process_message` accepts the author-less record
(only the `message` field is exercised before return), the
`NOT NULL` master insert then raises, only `json.JSONDecodeError` is
caught inside the loop, and the outer handler exits the process with code
11.  The database keeps no row (the claim's no-side-effect part holds; the
partition table `humor` was created empty), and the following valid line
is never processed. -/
theorem c1_counterexample :
    consumeIter exDec true exAuthorRun 0 freshDB =
      .raised 11 ⟨["humor"], [], [], []⟩ [.insertFail] := by decide

/-- Claim C1 (amended): a decoded record whose `message` key is absent is
rejected locally — logged, dropped, no storage side effect, and the loop
continues with the remaining lines.  A decoded record whose `author` key
is absent instead passes normalization with a `None` author; the storage
insert fails its NOT NULL constraint with no row stored in any table, the
exception escapes the line loop, and the run terminates (exit code 11)
without processing subsequent lines. -/
theorem c1_required_keys :
    (∀ (d : PyDict) (ls : List LineParse) (db : DB) (n : Nat) (evs : List Ev),
        d.message.getD .pnone = .pnone →
        drainLines (.ok d :: ls) db n evs = drainLines ls db n (evs ++ [.procErr])) ∧
    (∀ (d : PyDict) (p : ProcDict) (ls : List LineParse) (db : DB) (n : Nat) (evs : List Ev),
        processMessage d = some p → p.author = .pnone →
        ∃ db', drainLines (.ok d :: ls) db n evs = .fatal db' (evs ++ [.insertFail]) ∧
          db'.master = db.master ∧ db'.parts = db.parts ∧ db'.stats = db.stats) := by
  constructor
  · intro d ls db n evs hmsg
    simp [drainLines, processMessage_none_of_no_message d hmsg]
  · intro d p ls db n evs hd ha
    have hfail : (insertMessage p db).ok = false := by
      cases hok : (insertMessage p db).ok
      · rfl
      · obtain ⟨cat, mrow, _, hm, _⟩ := insertMessage_ok_shape p db hok
        rw [masterRowOf_author_none cat ha] at hm
        exact absurd hm (by simp)
    obtain ⟨h1, h2, h3⟩ := insertMessage_fail_shape p db hfail
    exact ⟨(insertMessage p db).db, by simp [drainLines, hd, hfail], h1, h2, h3⟩

theorem statsFind_replace_self (c : String) (v : Nat × ℚ) (l : List (String × Nat × ℚ)) :
    statsFind c (statsReplace c v l) = some v := by
  induction l with
  | nil => simp [statsReplace, statsFind]
  | cons e t ih =>
      obtain ⟨k, w⟩ := e
      by_cases hk : k = c
      · simpa [statsReplace, List.filter_cons, hk] using ih
      · have h1 : statsReplace c v ((k, w) :: t) = (k, w) :: statsReplace c v t := by
          simp [statsReplace, List.filter_cons, hk]
        rw [h1, statsFind]
        simp [hk, ih]

theorem statsFind_replace_ne (c c' : String) (v : Nat × ℚ)
    (l : List (String × Nat × ℚ)) (h : c' ≠ c) :
    statsFind c' (statsReplace c v l) = statsFind c' l := by
  induction l with
  | nil =>
      have hcc : c ≠ c' := fun hx => h hx.symm
      simp [statsReplace, statsFind, hcc]
  | cons e t ih =>
      obtain ⟨k, w⟩ := e
      by_cases hk : k = c
      · have h1 : statsReplace c v ((k, w) :: t) = statsReplace c v t := by
          simp [statsReplace, List.filter_cons, hk]
        have h2 : k ≠ c' := by rw [hk]; exact fun hx => h hx.symm
        rw [h1, ih, statsFind]
        simp [h2]
      · have h1 : statsReplace c v ((k, w) :: t) = (k, w) :: statsReplace c v t := by
          simp [statsReplace, List.filter_cons, hk]
        rw [h1]
        by_cases he : k = c'
        · simp [statsFind, he]
        · simp [statsFind, he, ih]

theorem catRows_append (a b : List MasterRow) (c : String) :
    catRows (a ++ b) c = catRows a c ++ catRows b c := by
  simp [catRows, List.filter_append]

theorem catRows_singleton_self {r : MasterRow} {c : String} (h : r.category = c) :
    catRows [r] c = [r] := by
  simp [catRows, List.filter_cons, h]

theorem catRows_singleton_ne {r : MasterRow} {c : String} (h : r.category ≠ c) :
    catRows [r] c = [] := by
  simp [catRows, List.filter_cons, h]

theorem statsInv_insert (p : ProcDict) (db : DB) (h : StatsInv db) :
    StatsInv (insertMessage p db).db := by
  cases hok : (insertMessage p db).ok
  · obtain ⟨h1, _, h3⟩ := insertMessage_fail_shape p db hok
    intro c
    rw [h1, h3]
    exact h c
  · obtain ⟨cat, mrow, hc, hm, hmast, hparts, hstats⟩ := insertMessage_ok_shape p db hok
    have hcatm : mrow.category = cat := masterRowOf_category hm
    intro c
    rw [hmast, hstats]
    by_cases hcc : c = cat
    · subst hcc
      rw [statsFind_replace_self]
      have hg : catRows (db.master ++ [mrow]) c = catRows db.master c ++ [mrow] := by
        rw [catRows_append, catRows_singleton_self hcatm]
      have hprev := h c
      unfold expectedStats at hprev ⊢
      rw [hg]
      by_cases he : (catRows db.master c).isEmpty
      · have hnil : catRows db.master c = [] := List.isEmpty_iff.mp he
        rw [hnil] at hprev
        simp at hprev
        rw [hprev, hnil]
        simp
      · simp only [Bool.not_eq_true] at he
        simp [he] at hprev
        rw [hprev]
        simp
    · rw [statsFind_replace_ne _ _ _ _ hcc]
      have hg : catRows (db.master ++ [mrow]) c = catRows db.master c := by
        rw [catRows_append, catRows_singleton_ne (by rw [hcatm]; exact fun hx => hcc hx.symm),
          List.append_nil]
      unfold expectedStats
      rw [hg]
      exact h c

/-- Claim C3 (confirmed): after any sequence of insert attempts starting
from the freshly initialized store, every `category_stats` row agrees
with recomputation from the master table: for every category,
`message_count` equals the number of master rows of that category (the
incremental `COALESCE(...) + 1` count can never drift because the store
starts fresh and every successful insert adds exactly one master row of
the category), and `avg_sentiment` equals the arithmetic mean of their
`sentiment` values (recomputed by `AVG` over the master table on every
insert); categories with no rows have no stats row.  Failed insert
attempts change nothing, so the invariant holds at every observation
point. -/
theorem c3_stats_invariant (ps : List ProcDict) (c : String) :
    statsFind c (insertRun ps freshDB).stats =
      expectedStats (insertRun ps freshDB).master c := by
  have base : StatsInv freshDB := fun _ => rfl
  have gen : ∀ db, StatsInv db → StatsInv (insertRun ps db) := by
    induction ps with
    | nil => exact fun _ h => h
    | cons p t ih =>
        intro db h
        have hstep : insertRun (p :: t) db = insertRun t (insertMessage p db).db := rfl
        rw [hstep]
        exact ih _ (statsInv_insert p db h)
  exact gen freshDB base c

/-- Witness for the amended C1 at the two concrete records. -/
theorem c1_witness :
    drainLines [.ok exNoMessage] freshDB 0 [] =
      drainLines [] freshDB 0 ([] ++ [.procErr]) ∧
    ∃ db', drainLines [.ok exNoAuthor] freshDB 0 [] = .fatal db' ([] ++ [.insertFail]) ∧
      db'.master = freshDB.master ∧ db'.parts = freshDB.parts ∧
      db'.stats = freshDB.stats :=
  ⟨c1_required_keys.1 exNoMessage [] freshDB 0 [] (by decide),
   c1_required_keys.2 exNoAuthor exNoAuthorProc [] freshDB 0 [] (by rfl) rfl⟩

theorem drain_counts (ls : List LineParse) :
    ∀ (db : DB) (n : Nat) (evs : List Ev) (db' : DB) (n' : Nat) (evs' : List Ev),
      drainLines ls db n evs = .done db' n' evs' →
      n ≤ n' ∧ evs'.count .insertOk = evs.count .insertOk + (n' - n) ∧
        evs'.count .report = evs.count .report + (n' / 10 - n / 10) := by
  induction ls with
  | nil =>
      intro db n evs db' n' evs' h
      rw [drainLines] at h
      cases h
      simp
  | cons l t ih =>
      intro db n evs db' n' evs' h
      cases l with
      | blank => exact ih db n evs db' n' evs' h
      | bad =>
          rw [drainLines] at h
          obtain ⟨h1, h2, h3⟩ := ih db n (evs ++ [.jsonErr]) db' n' evs' h
          refine ⟨h1, ?_, ?_⟩ <;> simp [List.count_append] at h2 h3 ⊢ <;> omega
      | ok d =>
          cases hp : processMessage d with
          | none =>
              rw [drainLines, hp] at h
              obtain ⟨h1, h2, h3⟩ := ih db n (evs ++ [.procErr]) db' n' evs' h
              refine ⟨h1, ?_, ?_⟩ <;> simp [List.count_append] at h2 h3 ⊢ <;> omega
          | some p =>
              rw [drainLines, hp] at h
              by_cases hok : (insertMessage p db).ok
              · simp only [hok, if_true] at h
                obtain ⟨h1, h2, h3⟩ :=
                  ih _ (n + 1)
                    (evs ++ [.insertOk] ++ (if (n + 1) % 10 = 0 then [.report] else []))
                    db' n' evs' h
                refine ⟨by omega, ?_, ?_⟩ <;> by_cases hrep : (n + 1) % 10 = 0 <;>
                  simp [hrep, List.count_append] at h2 h3 ⊢ <;> omega
              · simp only [Bool.not_eq_true] at hok
                simp [hok] at h

/-- Claim C4 (refuted as stated): `messages_processed` is a local variable
of `consume_messages_from_file`, reset to 0 on every call; the run below
stores ten records — five per drain cycle — and emits zero analytics
reports, whereas a running count for the whole run would emit one at the
tenth success. -/
theorem c4_counterexample :
    (runEvents (runSnapshots exDec [exFive, exTen] 0 freshDB [])).count .insertOk = 10 ∧
    (runEvents (runSnapshots exDec [exFive, exTen] 0 freshDB [])).count .report = 0 := by
  constructor <;> decide

/-- Claim C4 (amended): the success counter is local to each drain call
(reset to 0 at every poll); within one completed drain a report is
emitted on every 10th success of that drain, so a drain with `n`
successes emits exactly `n / 10` reports — successes spread across
different drain cycles do not accumulate. -/
theorem c4_reports_per_drain (ls : List LineParse) (db db' : DB) (n : Nat) (evs : List Ev)
    (h : drainLines ls db 0 [] = .done db' n evs) :
    evs.count .insertOk = n ∧ evs.count .report = n / 10 := by
  obtain ⟨h1, h2, h3⟩ := drain_counts ls db 0 [] db' n evs h
  constructor <;> simp at h2 h3 <;> omega

/-- Witness for the amended C4: a drain of five valid lines emits five
inserts and `5 / 10 = 0` reports. -/
theorem c4_witness :
    (List.replicate 5 Ev.insertOk).count Ev.insertOk = 5 ∧
    (List.replicate 5 Ev.insertOk).count Ev.report = 5 / 10 :=
  c4_reports_per_drain (List.replicate 5 (.ok exGood)) freshDB
    (insertRun (List.replicate 5 exGoodProc) freshDB) 5 (List.replicate 5 Ev.insertOk)
    (by rfl)

theorem summary_rows_eq_map (rows : List MasterRow) :
    ∀ out : List SRow, (∀ r ∈ out, r = summaryRow rows r.cat) →
      out = (out.map (·.cat)).map (summaryRow rows) := by
  intro out h
  induction out with
  | nil => rfl
  | cons r t ih =>
      simp only [List.map_cons]
      congr 1
      · exact h r (by simp)
      · exact ih (fun x hx => h x (by simp [hx]))

/-- Claim C5 (refuted as stated): the query orders only by
`message_count DESC` with no secondary sort key, so its semantics admits,
for a store with two categories of one message each, an output listing
category `b` before category `a` — violating the claimed
ties-broken-by-category-name-ascending deterministic order. -/
theorem c5_counterexample :
    validSummary exTieRows exTieOut ∧ ¬ exTieOut.Pairwise claimOrder := by
  constructor
  · refine ⟨by decide, ?_, by decide⟩
    intro r hr
    simp [exTieOut] at hr
    rcases hr with h | h <;> subst h <;> rfl
  · decide

/-- Claim C5 (amended): the query returns one row per category with at
least one message carrying
`(category, message_count, avg_sentiment, distinct_author_count,
most_recent_timestamp)`, ordered by `message_count` descending; the
relative order of equal-count categories is left unspecified by the
query, so any two admissible outputs agree only up to permutation. -/
theorem c5_summary_order (rows : List MasterRow) (o1 o2 : List SRow)
    (h1 : validSummary rows o1) (h2 : validSummary rows o2) :
    o1.Perm o2 ∧ o1.Pairwise (fun a b => b.cnt ≤ a.cnt) := by
  obtain ⟨hp1, hr1, hs1⟩ := h1
  obtain ⟨hp2, hr2, _⟩ := h2
  refine ⟨?_, hs1⟩
  have e1 := summary_rows_eq_map rows o1 hr1
  have e2 := summary_rows_eq_map rows o2 hr2
  rw [e1, e2]
  exact (hp1.trans hp2.symm).map (summaryRow rows)

/-- Witness for the amended C5 at a concrete two-category store. -/
theorem c5_witness : exTieOutAsc.Perm exTieOutAsc ∧
    exTieOutAsc.Pairwise (fun a b => b.cnt ≤ a.cnt) :=
  c5_summary_order exTieRows exTieOutAsc exTieOutAsc
    (by refine ⟨by decide, ?_, by decide⟩
        intro r hr
        simp [exTieOutAsc] at hr
        rcases hr with h | h <;> subst h <;> rfl)
    (by refine ⟨by decide, ?_, by decide⟩
        intro r hr
        simp [exTieOutAsc] at hr
        rcases hr with h | h <;> subst h <;> rfl)

end ConsumerModel
